import Mathlib

/-!
Verification of the packaging manifest of the gaia-star-radius repository.

The whole source is one file, setup.py.  It computes a list of installable
scripts by globbing the pattern bin slash star and discarding entries that
contain a tilde, then calls setup with fixed metadata and that list.

The filesystem is modelled as the part setup.py can observe: whether the
directory bin exists and, when it does, the names of its direct children in
listing order.  The glob call is embedded with the semantics of the Python
glob module for a pattern ending in a single star: children whose name
begins with a dot are not matched, subdirectories are not entered, and a
missing directory yields the empty list.
-/

/-- The part of the filesystem visible to setup.py: whether the directory
bin exists, and the list of names of its direct children (files and
subdirectories alike), in listing order. -/
structure FileSystem where
  binExists : Bool
  binEntries : List String
deriving Repr, DecidableEq

/-- A name begins with a dot.  The glob star wildcard does not match such
names. -/
def startsWithDot (s : String) : Bool :=
  match s.data with
  | [] => false
  | c :: _ => c == '.'

/-- Embedding of the Python test of whether the tilde character occurs in a
string, used in the list comprehension on line 5 of setup.py. -/
def containsTilde (s : String) : Bool :=
  s.data.contains '~'

/-- Embedding of the glob call on line 4 of setup.py, with the pattern bin
slash star: when the directory bin is missing the result is empty;
otherwise each direct child whose name does not begin with a dot is
returned as the directory name, a slash, and the child name. -/
def globBinStar (fs : FileSystem) : List String :=
  if fs.binExists then
    (fs.binEntries.filter (fun n => !startsWithDot n)).map (fun n => "bin/" ++ n)
  else
    []

/-- Embedding of line 5 of setup.py: keep the glob results in which no
tilde occurs. -/
def scripts (fs : FileSystem) : List String :=
  (globBinStar fs).filter (fun s => !containsTilde s)

/-- The declarative record produced by the setup call. -/
structure SetupManifest where
  name : String
  author : String
  url : String
  description : String
  scripts : List String
  version : String
deriving Repr, DecidableEq

/-- Embedding of the setup call on lines 8 to 18 of setup.py. -/
def runSetup (fs : FileSystem) : SetupManifest :=
  ⟨"gaia-star-radius",
   "Erin Sheldon",
   "https://github.com/esheldon/gaia-star-radius",
   "Code to measure the radius at which the " ++
     "star profile reaches the noise level",
   scripts fs,
   "0.1.0"⟩

/-- The script computation as the specification words it: collect the glob
matches, then exclude every entry in which a tilde occurs. -/
def specScripts (fs : FileSystem) : List String :=
  (globBinStar fs).filter (fun s => decide (¬ '~' ∈ s.data))

theorem data_bin_append (n : String) :
    ("bin/" ++ n).data = 'b' :: 'i' :: 'n' :: '/' :: n.data := by
  cases n
  rfl

theorem containsTilde_bin (n : String) :
    containsTilde ("bin/" ++ n) = containsTilde n := by
  simp [containsTilde, data_bin_append, List.contains_cons]

theorem bin_append_inj {a b : String} (h : "bin/" ++ a = "bin/" ++ b) :
    a = b := by
  have hd := congrArg String.data h
  rw [data_bin_append, data_bin_append] at hd
  simp only [List.cons.injEq, true_and] at hd
  cases a
  cases b
  exact congrArg String.mk hd

theorem mem_scripts (fs : FileSystem) (s : String) :
    s ∈ scripts fs ↔ s ∈ globBinStar fs ∧ containsTilde s = false := by
  simp [scripts, List.mem_filter]

theorem mem_globBinStar (fs : FileSystem) (s : String) :
    s ∈ globBinStar fs ↔
      fs.binExists = true ∧
        ∃ n, n ∈ fs.binEntries ∧ startsWithDot n = false ∧ s = "bin/" ++ n := by
  unfold globBinStar
  by_cases hb : fs.binExists = true
  · simp only [hb, if_true, true_and, List.mem_map, List.mem_filter,
      Bool.not_eq_true']
    constructor
    · rintro ⟨n, ⟨hn, hdot⟩, rfl⟩
      exact ⟨n, hn, hdot, rfl⟩
    · rintro ⟨n, hn, hdot, rfl⟩
      exact ⟨n, ⟨hn, hdot⟩, rfl⟩
  · simp [hb]

/-- C1: as stated the claim is false: the entry named dot hidden contains
no tilde, yet it is not in the scripts list, because the glob pattern does
not match names beginning with a dot. -/
theorem C1_counterexample :
    ¬ (("bin/" ++ ".hidden") ∈ scripts (FileSystem.mk true [".hidden"]) ↔
        containsTilde ".hidden" = false) := by
  decide

/-- C1 (amended): when the directory bin exists, a direct child F of bin
is in the scripts list if and only if its name contains no tilde and does
not begin with a dot. -/
theorem C1_amended_membership (fs : FileSystem) (hb : fs.binExists = true)
    (F : String) (hF : F ∈ fs.binEntries) :
    ("bin/" ++ F) ∈ scripts fs ↔
      (containsTilde F = false ∧ startsWithDot F = false) := by
  rw [mem_scripts, mem_globBinStar, containsTilde_bin]
  constructor
  · rintro ⟨⟨-, n, hn, hdot, heq⟩, htl⟩
    cases bin_append_inj heq
    exact ⟨htl, hdot⟩
  · rintro ⟨htl, hdot⟩
    exact ⟨⟨hb, F, hF, hdot, rfl⟩, htl⟩

/-- Witness for the amended C1 at a concrete filesystem. -/
theorem C1_amended_membership_witness :
    (FileSystem.mk true ["measure-radius"]).binExists = true ∧
      "measure-radius" ∈ (FileSystem.mk true ["measure-radius"]).binEntries ∧
      (("bin/" ++ "measure-radius") ∈ scripts (FileSystem.mk true ["measure-radius"]) ↔
        (containsTilde "measure-radius" = false ∧
          startsWithDot "measure-radius" = false)) :=
  ⟨rfl, by decide,
    C1_amended_membership (FileSystem.mk true ["measure-radius"]) rfl
      "measure-radius" (by decide)⟩

/-- C2: after the manifest is processed the declared name is
gaia-star-radius and the declared version is 0.1.0, for every filesystem. -/
theorem C2_name_version (fs : FileSystem) :
    (runSetup fs).name = "gaia-star-radius" ∧
      (runSetup fs).version = "0.1.0" :=
  ⟨rfl, rfl⟩

/-- C3: when the directory bin exists but has no entries, the scripts list
is empty and the manifest is still produced, with an empty script list. -/
theorem C3_empty_bin (fs : FileSystem) (hb : fs.binExists = true)
    (he : fs.binEntries = []) :
    scripts fs = [] ∧ (runSetup fs).scripts = [] := by
  have hs : scripts fs = [] := by
    simp [scripts, globBinStar, hb, he]
  exact ⟨hs, hs⟩

/-- Witness for C3 at the concrete filesystem with an empty bin. -/
theorem C3_empty_bin_witness :
    (FileSystem.mk true []).binExists = true ∧
      (FileSystem.mk true []).binEntries = [] ∧
      (scripts (FileSystem.mk true []) = [] ∧
        (runSetup (FileSystem.mk true [])).scripts = []) :=
  ⟨rfl, rfl, C3_empty_bin (FileSystem.mk true []) rfl rfl⟩

/-- C4: the scripts list equals the two step computation the specification
describes, the glob collection followed by exclusion of every entry in
which a tilde occurs, and it is an order preserving sublist of the glob
result. -/
theorem C4_two_steps (fs : FileSystem) :
    scripts fs = specScripts fs ∧
      (scripts fs).Sublist (globBinStar fs) ∧
      (∀ s, s ∈ scripts fs ↔ s ∈ globBinStar fs ∧ containsTilde s = false) := by
  refine ⟨?_, List.filter_sublist _, mem_scripts fs⟩
  unfold scripts specScripts
  congr 1
  funext s
  simp [containsTilde, List.elem_eq_mem]

/-- C6: a direct child of bin whose name begins with a dot never appears
in the scripts list, even when it contains no tilde. -/
theorem C6_hidden_excluded (fs : FileSystem) (F : String)
    (_hF : F ∈ fs.binEntries) (hdot : startsWithDot F = true) :
    ("bin/" ++ F) ∉ scripts fs := by
  rw [mem_scripts, mem_globBinStar]
  rintro ⟨⟨-, n, -, hnd, heq⟩, -⟩
  cases bin_append_inj heq
  rw [hdot] at hnd
  exact (Bool.eq_not_self true).mp hnd

/-- Witness for C6 at a concrete hidden entry. -/
theorem C6_hidden_excluded_witness :
    ".profile" ∈ (FileSystem.mk true [".profile"]).binEntries ∧
      startsWithDot ".profile" = true ∧
      ("bin/" ++ ".profile") ∉ scripts (FileSystem.mk true [".profile"]) :=
  ⟨by decide, rfl,
    C6_hidden_excluded (FileSystem.mk true [".profile"]) ".profile"
      (by decide) rfl⟩

/-- C7: when the directory bin does not exist the glob collection is
empty, so the scripts list is empty and the manifest is still produced,
with an empty script list. -/
theorem C7_missing_bin (fs : FileSystem) (hb : fs.binExists = false) :
    globBinStar fs = [] ∧ scripts fs = [] ∧ (runSetup fs).scripts = [] := by
  have hg : globBinStar fs = [] := by
    simp [globBinStar, hb]
  have hs : scripts fs = [] := by
    simp [scripts, hg]
  exact ⟨hg, hs, hs⟩

/-- Witness for C7 at the concrete filesystem without a bin directory. -/
theorem C7_missing_bin_witness :
    (FileSystem.mk false []).binExists = false ∧
      (globBinStar (FileSystem.mk false []) = [] ∧
        scripts (FileSystem.mk false []) = [] ∧
        (runSetup (FileSystem.mk false [])).scripts = []) :=
  ⟨rfl, C7_missing_bin (FileSystem.mk false []) rfl⟩

/-- C8: every element of the scripts list is the directory name, a slash,
and the name of a direct child of bin; when the child names hold no slash,
nothing from deeper in the tree can appear. -/
theorem C8_direct_children (fs : FileSystem)
    (hwf : ∀ n ∈ fs.binEntries, '/' ∉ n.data)
    (s : String) (hs : s ∈ scripts fs) :
    ∃ n, n ∈ fs.binEntries ∧ s = "bin/" ++ n ∧ '/' ∉ n.data := by
  rw [mem_scripts, mem_globBinStar] at hs
  obtain ⟨⟨-, n, hn, -, rfl⟩, -⟩ := hs
  exact ⟨n, hn, rfl, hwf n hn⟩

/-- Witness for C8 at a concrete filesystem with one script. -/
theorem C8_direct_children_witness :
    (∀ n ∈ (FileSystem.mk true ["run"]).binEntries, '/' ∉ n.data) ∧
      "bin/run" ∈ scripts (FileSystem.mk true ["run"]) ∧
      ∃ n, n ∈ (FileSystem.mk true ["run"]).binEntries ∧
        "bin/run" = "bin/" ++ n ∧ '/' ∉ n.data :=
  ⟨by decide, by decide,
    C8_direct_children (FileSystem.mk true ["run"]) (by decide)
      "bin/run" (by decide)⟩
